import Mathlib

/-
Verification of the MCPress article-ingestion backend.

This file gives a shallow embedding of the MCPress repository
(backend/app and mcp-server/src/mcpress) in Lean 4 and proves properties
of the embedded definitions.  External services (Jina reader, the Groq
LLM, the OpenAI embedding API, the database engine, Chroma) appear as
explicit inputs: a request handler that calls an external service is
modelled as a function of that call result; Python floats are modelled
as rationals; UUIDs as naturals drawn from a counter; Python `None` as
`Option.none`; an exception-raising function returns `Except`.
Definition names follow the Python source names where Lean allows it.
-/

namespace MCPress

/-! ### Character-list string helpers

Python string primitives used by the source (`str.split`, `str.strip`,
`str.lower`, digit parsing) are modelled over `List Char` by structural
recursion so that all definitions reduce in the kernel. -/

/-- Splits a character list at every occurrence of `sep`, like Python
`s.split(sep)`: n separators yield n+1 (possibly empty) fields. -/
def splitSep (sep : Char) : List Char → List (List Char)
  | [] => [[]]
  | c :: rest =>
    match splitSep sep rest with
    | [] => [[]]
    | h :: t => if c = sep then [] :: h :: t else (c :: h) :: t

/-- Removes leading and trailing whitespace, like Python `s.strip()`. -/
def trimChars (l : List Char) : List Char :=
  ((l.dropWhile Char.isWhitespace).reverse.dropWhile Char.isWhitespace).reverse

/-- Python `s.strip()` on a `String`. -/
def pyStrip (s : String) : String :=
  String.mk (trimChars s.data)

/-- Python `s.lower()` on a `String` (ASCII case folding, which covers
every string the repository compares). -/
def pyLower (s : String) : String :=
  String.mk (s.data.map Char.toLower)

/-- Value of a digit string, most significant digit first. -/
def digitsToNat (l : List Char) : Nat :=
  l.foldl (fun acc c => acc * 10 + (c.toNat - '0'.toNat)) 0

/-- True when every character is an ASCII digit. -/
def allDigits (l : List Char) : Bool :=
  l.all Char.isDigit

/-! ### Configuration (backend/app/config.py) -/

/-- Embeds `_split_comma_stripped` from `app/config.py`: split on commas,
strip each item, keep the non-empty ones. -/
def split_comma_stripped (s : String) : List String :=
  (((splitSep ',' s.data).map trimChars).filter (fun l => !l.isEmpty)).map String.mk

/-- Default of the `allowed_categories_str` field of `Settings` in
`app/config.py`. -/
def allowedCategoriesDefault : String :=
  "news,tech,sports,business,politics,entertainment,health,science"

/-- The `Settings.allowed_categories` property under the default
configuration. -/
def allowedCategories : List String :=
  split_comma_stripped allowedCategoriesDefault

/-! ### Dates (ArticleStorage._parse_date in backend/app/services/storage.py) -/

/-- Calendar date, the model of Python `datetime.date`. -/
structure PDate where
  year : Nat
  month : Nat
  day : Nat
deriving DecidableEq

/-- Gregorian leap-year rule, as validated by the Python `date`
constructor. -/
def isLeapYear (y : Nat) : Bool :=
  (y % 4 == 0 && y % 100 != 0) || y % 400 == 0

/-- Number of days of month `m` in year `y`. -/
def daysInMonth (y m : Nat) : Nat :=
  if m = 2 then (if isLeapYear y then 29 else 28)
  else if m = 4 ∨ m = 6 ∨ m = 9 ∨ m = 11 then 30
  else 31

/-- Builds a date when the fields describe a real calendar date, the
check Python `date(y, m, d)` performs (raising `ValueError` otherwise,
modelled as `none`). -/
def mkValidDate (y m d : Nat) : Option PDate :=
  if 1 ≤ m && m ≤ 12 && 1 ≤ d && d ≤ daysInMonth y m then some ⟨y, m, d⟩ else none

/-- Parses a digit field of `minLen` to `maxLen` digits, as the CPython
`strptime` field patterns do. -/
def parseNumField (l : List Char) (minLen maxLen : Nat) : Option Nat :=
  if minLen ≤ l.length && l.length ≤ maxLen && allDigits l && !l.isEmpty then
    some (digitsToNat l)
  else none

/-- Model of `date.fromisoformat` on the dashed calendar form
`YYYY-MM-DD` (four-digit year, two-digit month and day, range-checked),
returning `none` where Python raises `ValueError`. -/
def fromisoformat (s : String) : Option PDate :=
  match splitSep '-' s.data with
  | [y, m, d] =>
    match parseNumField y 4 4, parseNumField m 2 2, parseNumField d 2 2 with
    | some yv, some mv, some dv => mkValidDate yv mv dv
    | _, _, _ => none
  | _ => none

/-- Field order of a three-field `strptime` date format. -/
inductive DateOrder where
  | ymd
  | dmy
  | mdy
deriving DecidableEq

/-- Model of `datetime.strptime(s, fmt).date()` for the three-field date
formats used by `_parse_date`, with separator `sep` and field order
`ord`; CPython requires exactly four digits for `%Y` and one or two
digits for `%m` and `%d`, then validates the calendar date. Returns
`none` where Python raises `ValueError`. -/
def strptimeDate (sep : Char) (ord : DateOrder) (s : String) : Option PDate :=
  match splitSep sep s.data with
  | [a, b, c] =>
    let fields :=
      match ord with
      | .ymd => (parseNumField a 4 4, parseNumField b 1 2, parseNumField c 1 2)
      | .dmy => (parseNumField c 4 4, parseNumField b 1 2, parseNumField a 1 2)
      | .mdy => (parseNumField c 4 4, parseNumField a 1 2, parseNumField b 1 2)
    match fields with
    | (some y, some m, some d) => mkValidDate y m d
    | _ => none
  | _ => none

/-- Embeds `ArticleStorage._parse_date`: `None` and the empty string map
to `None`; otherwise try ISO, then the formats `%Y-%m-%d`, `%d/%m/%Y`,
`%m/%d/%Y`, `%Y/%m/%d` in order; every parse failure is caught, so the
function answers `None` instead of raising. -/
def parse_date (date_string : Option String) : Option PDate :=
  match date_string with
  | none => none
  | some s =>
    if s.data.isEmpty then none
    else
      match fromisoformat s with
      | some d => some d
      | none =>
        match strptimeDate '-' .ymd s with
        | some d => some d
        | none =>
          match strptimeDate '/' .dmy s with
          | some d => some d
          | none =>
            match strptimeDate '/' .mdy s with
            | some d => some d
            | none => strptimeDate '/' .ymd s

/-! ### Error types (services/storage.py, services/embedder.py, services/extractor.py) -/

/-- The `StorageError` exception of `app/services/storage.py`. -/
structure StorageError where
  msg : String
deriving DecidableEq

/-- The `EmbeddingError` exception of `app/services/embedder.py`. -/
structure EmbeddingError where
  msg : String
deriving DecidableEq

/-- The `ExtractionError` exception of `app/services/extractor.py`. -/
structure ExtractionError where
  msg : String
deriving DecidableEq

/-! ### Request schemas (backend/app/models/article.py) -/

/-- The `OrganizationInfo` schema. -/
structure OrganizationInfo where
  name : String
  email : String
deriving DecidableEq

/-- The `SaveRequest` schema: all article data sent to `POST /save`. -/
structure SaveRequest where
  url : String
  title : String
  author : Option String
  published_date : Option String
  content : String
  summary : String
  keywords : List String
  category : String
  organization : Option OrganizationInfo
  image_url : Option String
deriving DecidableEq

/-- The `ArticleContent` schema: fields the LLM extraction step returns. -/
structure ArticleContent where
  title : String
  author : Option String
  published_date : Option String
  content : String
  summary : String
  keywords : List String
  category : String
deriving DecidableEq

/-! ### Database rows

The ORM module `app/models/database.py` is not in the source tree; the
row shapes below are reconstructed from every field `storage.py` reads
or writes on `Organization`, `Category`, `Article` and
`ArticleEmbedding`. -/

/-- An `organizations` row. -/
structure Organization where
  id : Nat
  name : String
  email : String
deriving DecidableEq

/-- A `categories` row. -/
structure Category where
  id : Nat
  name : String
deriving DecidableEq

/-- An `articles` row. -/
structure Article where
  id : Nat
  url : String
  title : String
  author : Option String
  published_date : Option PDate
  content : String
  summary : String
  keywords : List String
  category_id : Nat
  organization_id : Option Nat
  image_url : Option String
deriving DecidableEq

/-- An `article_embeddings` row. -/
structure ArticleEmbedding where
  id : Nat
  article_id : Nat
  embedding : List ℚ
deriving DecidableEq

/-- The relational store the storage service reads and writes, with a
counter supplying fresh ids (the model of `uuid4()`). -/
structure DB where
  organizations : List Organization
  categories : List Category
  articles : List Article
  embeddings : List ArticleEmbedding
  nextId : Nat
deriving DecidableEq

/-- The store with no rows. -/
def emptyDB : DB := ⟨[], [], [], [], 0⟩

/-! ### Storage service (backend/app/services/storage.py) -/

/-- Embeds `ArticleStorage._get_or_create_organization`: no
organization yields `None`; otherwise look the organization up by email
and create a row with a fresh id when absent. -/
def get_or_create_organization (orgs : List Organization) (nextId : Nat)
    (org_info : Option OrganizationInfo) : Option Nat × List Organization × Nat :=
  match org_info with
  | none => (none, orgs, nextId)
  | some oi =>
    match orgs.find? (fun o => o.email == oi.email) with
    | some existing => (some existing.id, orgs, nextId)
    | none => (some nextId, orgs ++ [⟨nextId, oi.name, oi.email⟩], nextId + 1)

/-- Embeds `ArticleStorage._get_or_create_category`: normalize the name
with `lower().strip()`, look the category up by name, create a row with
a fresh id when absent.  No allow-list check happens here. -/
def get_or_create_category (cats : List Category) (nextId : Nat)
    (category_name : String) : Nat × List Category × Nat :=
  let name := pyStrip (pyLower category_name)
  match cats.find? (fun c => c.name == name) with
  | some existing => (existing.id, cats, nextId)
  | none => (nextId, cats ++ [⟨nextId, name⟩], nextId + 1)

/-- The update of an existing article row inside `save_article`: every
field except `id` and `url` is overwritten from the request. -/
def updateExisting (req : SaveRequest) (pd : Option PDate) (catId : Nat)
    (orgId : Option Nat) (a : Article) : Article :=
  { a with
    title := req.title
    author := req.author
    published_date := pd
    content := req.content
    summary := req.summary
    keywords := req.keywords
    category_id := catId
    organization_id := orgId
    image_url := req.image_url }

/-- The embedding branch of `save_article`: update the `ArticleEmbedding`
row of the article when one exists, otherwise insert one. -/
def upsertEmbedding (embs : List ArticleEmbedding) (nextId : Nat) (aid : Nat)
    (v : List ℚ) : List ArticleEmbedding × Nat :=
  if embs.any (fun e => e.article_id == aid) then
    (embs.map (fun e => if e.article_id == aid then { e with embedding := v } else e), nextId)
  else
    (embs ++ [⟨nextId, aid, v⟩], nextId + 1)

/-- The `try ... except EmbeddingError: pass` block of `save_article`:
a failed embedding call is swallowed and leaves the embeddings table
unchanged; a successful one is upserted. -/
def saveEmbeddingStep (embedder : String → Except EmbeddingError (List ℚ))
    (summary : String) (aid : Nat) (embs : List ArticleEmbedding) (nextId : Nat) :
    List ArticleEmbedding × Nat :=
  match embedder summary with
  | .ok v => upsertEmbedding embs nextId aid v
  | .error _ => (embs, nextId)

/-- Embeds `ArticleStorage.save_article`.  The embedding service is an
explicit argument.  Steps, as in the source: get or create the
organization and the category, parse the date, select articles by URL
(`scalar_one_or_none` answers none or one row and raises when several
match, which the surrounding `except` turns into a `StorageError`);
update the matching row in place, or insert a new row with a fresh id;
then run the embedding step, whose failure does not fail the save. -/
def save_article (embedder : String → Except EmbeddingError (List ℚ))
    (req : SaveRequest) (db : DB) : Except StorageError (Nat × DB) :=
  let r1 := get_or_create_organization db.organizations db.nextId req.organization
  let orgId := r1.1
  let r2 := get_or_create_category db.categories r1.2.2 req.category
  let catId := r2.1
  let pd := parse_date req.published_date
  match db.articles.filter (fun a => a.url == req.url) with
  | [] =>
    let aid := r2.2.2
    let article : Article :=
      ⟨aid, req.url, req.title, req.author, pd, req.content, req.summary,
        req.keywords, catId, orgId, req.image_url⟩
    let r3 := saveEmbeddingStep embedder req.summary aid db.embeddings (aid + 1)
    .ok (aid, ⟨r1.2.1, r2.2.1, db.articles ++ [article], r3.1, r3.2⟩)
  | [existing] =>
    let aid := existing.id
    let arts := db.articles.map
      (fun a => if a.url == req.url then updateExisting req pd catId orgId a else a)
    let r3 := saveEmbeddingStep embedder req.summary aid db.embeddings r2.2.2
    .ok (aid, ⟨r1.2.1, r2.2.1, arts, r3.1, r3.2⟩)
  | _ => .error ⟨"Failed to save article: multiple rows found for one URL"⟩

/-- Number of stored articles carrying URL `u`. -/
def countUrl (arts : List Article) (u : String) : Nat :=
  arts.countP (fun a => a.url == u)

/-! ### Extractor service (backend/app/services/extractor.py) -/

/-- Outcome of the HTTP fetch `httpx` performs inside
`fetch_url_content`: a body, a status error, or a transport error. -/
inductive FetchResult where
  | ok (body : String)
  | httpStatusError (code : Nat) (text : String)
  | requestError (msg : String)
deriving DecidableEq

/-- Embeds `ArticleExtractor.fetch_url_content` as a function of the
fetch outcome.  A body that is empty or shorter than 100 characters
raises `ExtractionError` inside the `try`, which the blanket
`except Exception` clause catches and re-wraps; `httpx` errors are
translated to `ExtractionError` with the messages of the source. -/
def fetch_url_content (url : String) : FetchResult → Except ExtractionError String
  | .ok body =>
    if body.length < 100 then
      .error ⟨"Unexpected error fetching URL: Content too short or empty from URL: " ++ url⟩
    else
      .ok body
  | .httpStatusError code text =>
    .error ⟨"HTTP error fetching URL: " ++ toString code ++ " - " ++ text⟩
  | .requestError msg =>
    .error ⟨"Request error fetching URL: " ++ msg⟩

/-- Embeds `_build_extraction_prompt`: template text around the article
content truncated to its first 15000 characters.  The literal template
text is abbreviated here; only the truncation is load-bearing. -/
def build_extraction_prompt (content : String) : String :=
  "You are an expert article analyzer. Extract the following information "
    ++ "from the provided article markdown. ## Article Content "
    ++ String.mk (content.data.take 15000)
    ++ " ## Task Extract the following fields in JSON format."

/-- Embeds the category-validation step of `_parse_extracted_content`
(lines 150-153 of `extractor.py`): a category outside the configured
allow-list is replaced by the fallback category `news`. -/
def validate_extracted_category (category : String) : String :=
  if allowedCategories.contains category then category else "news"

/-- Embeds `ArticleExtractor.extract` as a function of the fetch outcome
and of the LLM call-plus-parse step (Groq call and
`_parse_extracted_content`), which runs only when the fetch step
succeeded. -/
def extract (url : String) (fetch : FetchResult)
    (llm : String → Except ExtractionError ArticleContent) :
    Except ExtractionError ArticleContent :=
  match fetch_url_content url fetch with
  | .error e => .error e
  | .ok content => llm (build_extraction_prompt content)

/-! ### Embedder service (backend/app/services/embedder.py) -/

/-- Outcome of the OpenAI embeddings call inside `Embedder.generate`. -/
inductive OpenAICallResult where
  | ok (embedding : List ℚ)
  | openAIError (msg : String)
  | otherError (msg : String)
deriving DecidableEq

/-- Embeds `Embedder.generate`: an `OpenAIError` and any other failure
are re-raised as `EmbeddingError` with a message. -/
def generate : OpenAICallResult → Except EmbeddingError (List ℚ)
  | .ok v => .ok v
  | .openAIError m => .error ⟨"OpenAI API error: " ++ m⟩
  | .otherError m => .error ⟨"Unexpected embedding error: " ++ m⟩

/-! ### Chroma store (backend/app/store/chroma_store.py) -/

/-- One hit of `chroma_store.query` before the similarity field is
attached: id, document and the distance Chroma reports (`None` when
Chroma returns no distance). -/
structure QueryRow where
  id : String
  document : String
  distance : Option ℚ
deriving DecidableEq

/-- One element of the list `chroma_store.query` returns. -/
structure SearchHit where
  id : String
  document : String
  distance : Option ℚ
  similarity : Option ℚ
deriving DecidableEq

/-- The per-row body of the loop in `chroma_store.query`: similarity is
`1 - distance` when a distance is present, else `None`. -/
def chroma_query_hit (r : QueryRow) : SearchHit :=
  { id := r.id
    document := r.document
    distance := r.distance
    similarity :=
      match r.distance with
      | some d => some (1 - d)
      | none => none }

/-- Embeds `chroma_store.query` as a function of the raw rows the Chroma
collection returns for the query embedding. -/
def chroma_query (rows : List QueryRow) : List SearchHit :=
  rows.map chroma_query_hit

/-- Modelled from the spec: `ArticleStorage.search_articles`, which the
route `GET /articles/search` calls with the `similarity_threshold`
query parameter, is not defined in the source tree (only its caller
is); the MCP search tool likewise delegates the threshold to the
`match_article_embeddings` SQL function, which is also out of tree.
Modelled from the spec sentence that search respects a similarity
threshold floor: results below the threshold are dropped. -/
def search_articles_with_threshold (rows : List QueryRow)
    (similarity_threshold : ℚ) : List SearchHit :=
  (chroma_query rows).filter (fun h =>
    match h.similarity with
    | some s => decide (similarity_threshold ≤ s)
    | none => false)

/-- One stored document of the Chroma `articles` collection as
`chroma_store.list_articles` sees it. -/
structure StoredDoc where
  id : String
  document : String
  category : String
  organization : String
  author : String
deriving DecidableEq

/-- A Chroma `collection.get(where=..., limit=n)` call: the first `n`
stored documents matching the metadata filter, in store order. -/
def chroma_collection_get (store : List StoredDoc) (w : StoredDoc → Bool)
    (limit : Nat) : List StoredDoc :=
  (store.filter w).take limit

/-- Embeds `chroma_store.list_articles`: fetch with
`limit = offset + limit`, answer the empty list when nothing matched,
otherwise take the Python slice `[offset : offset + limit]`. -/
def chroma_list_articles (store : List StoredDoc) (w : StoredDoc → Bool)
    (limit offset : Nat) : List StoredDoc :=
  let result := chroma_collection_get store w (offset + limit)
  if result.isEmpty then []
  else (result.drop offset).take limit

/-! ### HTTP routes (backend/app/api/routes/articles.py) -/

/-- A FastAPI handler outcome: a value, or an `HTTPException` with a
status code and a detail message. -/
inductive RouteResponse (α : Type) where
  | ok (value : α)
  | httpError (status_code : Nat) (detail : String)
deriving DecidableEq

/-- Embeds the `POST /articles/extract` handler as a function of the
extractor outcome: `ExtractionError` becomes HTTP 500 with the error
message as detail. -/
def extract_article_route (url : String)
    (result : Except ExtractionError ArticleContent) :
    RouteResponse (String × ArticleContent) :=
  match result with
  | .ok c => .ok (url, c)
  | .error e => .httpError 500 e.msg

/-- Embeds the `POST /articles/save` handler as a function of the
storage outcome: `StorageError` becomes HTTP 500. -/
def save_article_route (result : Except StorageError Nat) : RouteResponse Nat :=
  match result with
  | .ok id => .ok id
  | .error e => .httpError 500 e.msg

/-- Embeds the `GET /articles/search` handler error path: any exception
out of the storage call becomes HTTP 500. -/
def search_articles_route (result : Except String (List SearchHit)) :
    RouteResponse (List SearchHit) :=
  match result with
  | .ok v => .ok v
  | .error msg => .httpError 500 msg

/-- Embeds the `GET /articles` list handler error path: any exception
out of the storage call becomes HTTP 500. -/
def list_articles_route (result : Except String (List StoredDoc)) :
    RouteResponse (List StoredDoc) :=
  match result with
  | .ok v => .ok v
  | .error msg => .httpError 500 msg

/-- Embeds the `GET /articles/{article_id}` handler as a function of the
storage outcome: `StorageError` becomes HTTP 500; a missing article
becomes HTTP 404 (the `HTTPException` raised inside the `try` is not a
`StorageError`, so it propagates). -/
def get_article_route (article_id : Nat)
    (result : Except StorageError (Option Article)) : RouteResponse Article :=
  match result with
  | .error e => .httpError 500 e.msg
  | .ok none => .httpError 404 ("Article with ID " ++ toString article_id ++ " not found")
  | .ok (some a) => .ok a

/-! ### Public interface operations (HTTP routes and MCP tools)

The five HTTP operations come from `app/api/routes/articles.py`; the
MCP tools from `register_tools` in
`mcp-server/src/mcpress/tools/articles.py`, which registers exactly
`search_articles`, `get_article` and `list_articles`. -/

/-- The abstract operations the external interfaces perform. -/
inductive ApiOperation where
  | extractOp
  | saveOp
  | getByIdOp
  | searchOp
  | listOp
deriving DecidableEq

/-- Operations of the five HTTP endpoints, in route-file order:
`POST /extract`, `POST /save`, `GET /search`, `GET ""` (list),
`GET /{article_id}`. -/
def httpOperations : List ApiOperation :=
  [.extractOp, .saveOp, .searchOp, .listOp, .getByIdOp]

/-- Names of the tools `register_tools` registers on the MCP server. -/
def mcpToolNames : List String :=
  ["search_articles", "get_article", "list_articles"]

/-- Operation each registered MCP tool performs, read off the tool
bodies: `search_articles` performs the search, `get_article` the lookup
by id, `list_articles` the filtered listing. -/
def mcpToolOperations : List ApiOperation :=
  [.searchOp, .getByIdOp, .listOp]

/-- One request against the public interface: an HTTP route call or an
MCP tool call.  Arguments that do not influence the store are elided. -/
inductive PublicOp where
  | extractOp (url : String)
  | saveOp (req : SaveRequest)
  | getByIdOp (article_id : Nat)
  | searchOp (q : String) (limit : Nat) (similarity_threshold : ℚ)
  | listOp (limit offset : Nat)
  | mcpSearchOp (query : String) (limit : Nat) (similarity_threshold : ℚ)
  | mcpGetOp (article_id : String)
  | mcpListOp (limit offset : Nat)

/-- Effect of one public operation on the relational store.  Only the
save route writes; the failed save rolls its transaction back.  No
reachable operation calls `chroma_store.delete` or issues any delete. -/
def applyOp (embedder : String → Except EmbeddingError (List ℚ)) (db : DB) :
    PublicOp → DB
  | .saveOp req =>
    match save_article embedder req db with
    | .ok r => r.2
    | .error _ => db
  | _ => db

/-- Effect of a sequence of public operations on the store. -/
def runOps (embedder : String → Except EmbeddingError (List ℚ)) (db : DB)
    (ops : List PublicOp) : DB :=
  ops.foldl (applyOp embedder) db

/-! ### Helper lemmas about the storage layer -/

/-- Abbreviation for the row the create branch of `save_article`
inserts, used to state lemmas about that branch. -/
def insertedArticle (req : SaveRequest) (db : DB) : Article :=
  let r1 := get_or_create_organization db.organizations db.nextId req.organization
  let r2 := get_or_create_category db.categories r1.2.2 req.category
  ⟨r2.2.2, req.url, req.title, req.author, parse_date req.published_date,
    req.content, req.summary, req.keywords, r2.1, r1.1, req.image_url⟩

/-- Abbreviation for the articles table the update branch of
`save_article` produces, used to state lemmas about that branch. -/
def updatedArticles (req : SaveRequest) (db : DB) : List Article :=
  let r1 := get_or_create_organization db.organizations db.nextId req.organization
  let r2 := get_or_create_category db.categories r1.2.2 req.category
  db.articles.map (fun a =>
    if a.url == req.url then
      updateExisting req (parse_date req.published_date) r2.1 r1.1 a
    else a)

lemma mem_of_filter_singleton {arts : List Article} {p : Article → Bool} {ex : Article}
    (h : arts.filter p = [ex]) : ex ∈ arts ∧ p ex = true := by
  have hm : ex ∈ arts.filter p := by
    rw [h]
    exact List.mem_singleton_self ex
  exact List.mem_filter.mp hm

lemma countUrl_eq_filter_length (arts : List Article) (u : String) :
    countUrl arts u = (arts.filter (fun a => a.url == u)).length :=
  List.countP_eq_length_filter _ _

lemma countUrl_updatedArticles (req : SaveRequest) (db : DB) (u : String) :
    countUrl (updatedArticles req db) u = countUrl db.articles u := by
  unfold updatedArticles countUrl
  rw [List.countP_map]
  apply List.countP_congr
  intro a _
  by_cases h : (a.url == req.url) = true
  · simp [Function.comp, h, updateExisting]
  · simp [Function.comp, h]

lemma length_updatedArticles (req : SaveRequest) (db : DB) :
    (updatedArticles req db).length = db.articles.length := by
  unfold updatedArticles
  exact List.length_map _ _

/-- Characterization of a successful `save_article` under the
one-row-per-URL invariant: it answers an id and a new store, the
articles table is either the old one with exactly one appended row or
the old one with the row of the request URL updated in place, and a
failed embedding call leaves the embeddings table unchanged. -/
lemma save_article_char (embedder : String → Except EmbeddingError (List ℚ))
    (req : SaveRequest) (db : DB)
    (hinv : countUrl db.articles req.url ≤ 1) :
    ∃ id db', save_article embedder req db = .ok (id, db') ∧
      ((db.articles.filter (fun a => a.url == req.url) = [] ∧
          id = (insertedArticle req db).id ∧
          db'.articles = db.articles ++ [insertedArticle req db]) ∨
        (∃ ex, db.articles.filter (fun a => a.url == req.url) = [ex] ∧
          id = ex.id ∧ db'.articles = updatedArticles req db)) ∧
      (∀ e, embedder req.summary = .error e → db'.embeddings = db.embeddings) ∧
      (∃ a, a ∈ db'.articles ∧ a.id = id ∧ a.url = req.url ∧
        a.title = req.title ∧ a.content = req.content ∧ a.summary = req.summary ∧
        a.keywords = req.keywords ∧ a.image_url = req.image_url) := by
  have hc : (db.articles.filter (fun a => a.url == req.url)).length ≤ 1 := by
    rw [← countUrl_eq_filter_length]
    exact hinv
  cases hfe : db.articles.filter (fun a => a.url == req.url) with
  | nil =>
    refine ⟨?ia, ?da, ?ha1, ?ha2, ?ha3, ?ha4⟩
    case ha1 =>
      unfold save_article
      rw [hfe]
      exact rfl
    case ha2 => exact Or.inl ⟨rfl, rfl, rfl⟩
    case ha3 =>
      intro e he
      show (saveEmbeddingStep embedder req.summary _ db.embeddings _).1 = db.embeddings
      simp [saveEmbeddingStep, he]
    case ha4 =>
      exact ⟨insertedArticle req db,
        List.mem_append_right _ (List.mem_singleton_self _),
        rfl, rfl, rfl, rfl, rfl, rfl, rfl⟩
  | cons ex rest =>
    have hrest : rest = [] := by
      rw [hfe] at hc
      simpa using hc
    subst hrest
    refine ⟨?ib, ?db2, ?hb1, ?hb2, ?hb3, ?hb4⟩
    case hb1 =>
      unfold save_article
      rw [hfe]
      exact rfl
    case hb2 => exact Or.inr ⟨ex, rfl, rfl, rfl⟩
    case hb3 =>
      intro e he
      show (saveEmbeddingStep embedder req.summary _ db.embeddings _).1 = db.embeddings
      simp [saveEmbeddingStep, he]
    case hb4 =>
      obtain ⟨hmem, hp⟩ := mem_of_filter_singleton hfe
      refine ⟨_, List.mem_map_of_mem _ hmem, ?_, ?_, ?_, ?_, ?_, ?_, ?_⟩ <;>
        simp [hp, updateExisting, eq_of_beq hp]

/-! ### Claim C1 -/

/-- C1: for every save under the at-most-one-article-per-URL invariant,
`save_article` succeeds and preserves the invariant; afterwards exactly
one stored article carries the request URL and holds the request
fields; a save of a URL not present adds exactly one row; a save of a
URL already present answers the existing row id and adds no row. -/
theorem save_article_upsert_by_url (embedder : String → Except EmbeddingError (List ℚ))
    (req : SaveRequest) (db : DB)
    (hinv : ∀ u, countUrl db.articles u ≤ 1) :
    ∃ id db', save_article embedder req db = .ok (id, db') ∧
      (∀ u, countUrl db'.articles u ≤ 1) ∧
      countUrl db'.articles req.url = 1 ∧
      (∃ a, a ∈ db'.articles ∧ a.id = id ∧ a.url = req.url ∧
        a.title = req.title ∧ a.content = req.content ∧ a.summary = req.summary) ∧
      (countUrl db.articles req.url = 0 →
        db'.articles.length = db.articles.length + 1) ∧
      (∀ ex, ex ∈ db.articles → ex.url = req.url →
        id = ex.id ∧ db'.articles.length = db.articles.length) := by
  obtain ⟨id, db', hok, hshape, -, hfields⟩ :=
    save_article_char embedder req db (hinv req.url)
  obtain ⟨a0, ha0, hid0, hurl0, htitle0, hcontent0, hsummary0, -, -⟩ := hfields
  refine ⟨id, db', hok, ?_, ?_, ⟨a0, ha0, hid0, hurl0, htitle0, hcontent0, hsummary0⟩, ?_, ?_⟩
  case _ =>
    intro u
    rcases hshape with ⟨hfe, -, harts⟩ | ⟨ex, hfe, -, harts⟩
    · rw [harts]
      unfold countUrl
      rw [List.countP_append]
      have hart : (insertedArticle req db).url = req.url := rfl
      by_cases hu : u = req.url
      · have h0 : countUrl db.articles u = 0 := by
          rw [countUrl_eq_filter_length, hu, hfe]
          rfl
        unfold countUrl at h0
        simp [h0, hart, hu]
        intro a ha
        have h2 := List.countP_eq_zero.mp h0 a ha
        rw [hu] at h2
        simpa using h2
      · have : ((insertedArticle req db).url == u) = false := by
          rw [hart]
          exact beq_false_of_ne (Ne.symm hu)
        simp [this]
        exact hinv u
    · rw [harts, countUrl_updatedArticles]
      exact hinv u
  case _ =>
    rcases hshape with ⟨hfe, -, harts⟩ | ⟨ex, hfe, -, harts⟩
    · rw [harts]
      unfold countUrl
      rw [List.countP_append]
      have h0 : countUrl db.articles req.url = 0 := by
        rw [countUrl_eq_filter_length, hfe]
        rfl
      unfold countUrl at h0
      have hart : ((insertedArticle req db).url == req.url) = true := by
        exact beq_self_eq_true _
      simp [h0, hart]
    · rw [harts, countUrl_updatedArticles, countUrl_eq_filter_length, hfe]
      rfl
  case _ =>
    intro h0
    rcases hshape with ⟨hfe, -, harts⟩ | ⟨ex, hfe, -, harts⟩
    · rw [harts, List.length_append]
      rfl
    · exfalso
      rw [countUrl_eq_filter_length, hfe] at h0
      exact Nat.one_ne_zero h0
  case _ =>
    intro ex hmem hurl
    rcases hshape with ⟨hfe, -, harts⟩ | ⟨ex0, hfe, hid, harts⟩
    · exfalso
      have : ex ∈ db.articles.filter (fun a => a.url == req.url) :=
        List.mem_filter.mpr ⟨hmem, by rw [hurl]; exact beq_self_eq_true _⟩
      rw [hfe] at this
      exact List.not_mem_nil ex this
    · have : ex ∈ db.articles.filter (fun a => a.url == req.url) :=
        List.mem_filter.mpr ⟨hmem, by rw [hurl]; exact beq_self_eq_true _⟩
      rw [hfe] at this
      have hex : ex = ex0 := List.mem_singleton.mp this
      subst hex
      exact ⟨hid, by rw [harts]; exact length_updatedArticles req db⟩

/-- Embedding service that always fails, for witnesses. -/
def embDown : String → Except EmbeddingError (List ℚ) :=
  fun _ => .error ⟨"OpenAI API error: down"⟩

/-- Concrete save request, for witnesses. -/
def reqAlpha : SaveRequest :=
  ⟨"https://example.com/alpha", "Alpha", none, some "2024-03-05", "Alpha body",
    "Alpha summary", ["a"], "tech", none, none⟩

/-- Witness for C1 at a concrete request against the empty store. -/
theorem save_article_upsert_by_url_witness :
    ∃ id db', save_article embDown reqAlpha emptyDB = .ok (id, db') ∧
      (∀ u, countUrl db'.articles u ≤ 1) ∧
      countUrl db'.articles reqAlpha.url = 1 ∧
      (∃ a, a ∈ db'.articles ∧ a.id = id ∧ a.url = reqAlpha.url ∧
        a.title = reqAlpha.title ∧ a.content = reqAlpha.content ∧
        a.summary = reqAlpha.summary) ∧
      (countUrl emptyDB.articles reqAlpha.url = 0 →
        db'.articles.length = emptyDB.articles.length + 1) ∧
      (∀ ex, ex ∈ emptyDB.articles → ex.url = reqAlpha.url →
        id = ex.id ∧ db'.articles.length = emptyDB.articles.length) :=
  save_article_upsert_by_url embDown reqAlpha emptyDB
    (by intro u; simp [countUrl, emptyDB])

/-! ### Claim C2 -/

/-- C2: when the embedding call fails with `EmbeddingError`,
`save_article` still answers an article id, the article record with the
request fields is stored, and the embeddings table is unchanged. -/
theorem save_article_embedding_failure_preserves_save
    (embedder : String → Except EmbeddingError (List ℚ)) (req : SaveRequest)
    (db : DB) (e : EmbeddingError)
    (hfail : embedder req.summary = .error e)
    (hinv : countUrl db.articles req.url ≤ 1) :
    ∃ id db', save_article embedder req db = .ok (id, db') ∧
      db'.embeddings = db.embeddings ∧
      ∃ a, a ∈ db'.articles ∧ a.id = id ∧ a.url = req.url ∧
        a.title = req.title ∧ a.content = req.content ∧ a.summary = req.summary ∧
        a.keywords = req.keywords ∧ a.image_url = req.image_url := by
  obtain ⟨id, db', hok, hshape, hemb, hfields⟩ := save_article_char embedder req db hinv
  refine ⟨id, db', hok, hemb e hfail, ?_⟩
  rcases hshape with ⟨hfe, hid, harts⟩ | ⟨ex, hfe, hid, harts⟩
  · refine ⟨insertedArticle req db, ?_, hid.symm, rfl, rfl, rfl, rfl, rfl, rfl⟩
    rw [harts]
    exact List.mem_append_right _ (List.mem_singleton_self _)
  · obtain ⟨hmem, hp⟩ := mem_of_filter_singleton hfe
    have hurl : ex.url = req.url := eq_of_beq hp
    refine ⟨updateExisting req (parse_date req.published_date)
      (get_or_create_category db.categories
        (get_or_create_organization db.organizations db.nextId req.organization).2.2
        req.category).1
      (get_or_create_organization db.organizations db.nextId req.organization).1 ex,
      ?_, ?_, ?_, rfl, rfl, rfl, rfl, rfl⟩
    · rw [harts]
      unfold updatedArticles
      refine List.mem_map.mpr ⟨ex, hmem, ?_⟩
      simp [hp]
    · show ex.id = id
      rw [hid]
    · show ex.url = req.url
      exact hurl

/-- Witness for C2 at a concrete request against the empty store, with
an embedding service that is down. -/
theorem save_article_embedding_failure_witness :
    ∃ id db', save_article embDown reqAlpha emptyDB = .ok (id, db') ∧
      db'.embeddings = emptyDB.embeddings ∧
      ∃ a, a ∈ db'.articles ∧ a.id = id ∧ a.url = reqAlpha.url ∧
        a.title = reqAlpha.title ∧ a.content = reqAlpha.content ∧
        a.summary = reqAlpha.summary ∧ a.keywords = reqAlpha.keywords ∧
        a.image_url = reqAlpha.image_url :=
  save_article_embedding_failure_preserves_save embDown reqAlpha emptyDB
    ⟨"OpenAI API error: down"⟩ rfl (by simp [countUrl, emptyDB])

/-! ### Claim C10 -/

lemma fromisoformat_empty (s : String) (h : s.data.isEmpty) : fromisoformat s = none := by
  have hd : s.data = [] := List.isEmpty_iff.mp h
  unfold fromisoformat
  rw [hd]
  rfl

lemma strptimeDate_empty (sep : Char) (ord : DateOrder) (s : String)
    (h : s.data.isEmpty) : strptimeDate sep ord s = none := by
  have hd : s.data = [] := List.isEmpty_iff.mp h
  unfold strptimeDate
  rw [hd]
  rfl

/-- Concrete request whose `published_date` parses under no format, for
the C10 witness. -/
def reqGarbageDate : SaveRequest :=
  ⟨"https://example.com/gd", "Gd", none, some "99/99/9999", "Gd body",
    "Gd summary", [], "tech", none, none⟩

/-- C10: `parse_date` is total: `None` and the empty string yield
`None`; an ISO-format input yields its parsed date; when ISO and
`%Y-%m-%d` fail, a `%d/%m/%Y` input yields its parsed date; when every
format fails it yields `None` instead of raising; and `save_article`
succeeds whatever the `published_date` string holds (under the
one-row-per-URL invariant, the request URL being the only failure
source). -/
theorem parse_date_total_and_save_safe :
    parse_date none = none ∧
    parse_date (some "") = none ∧
    (∀ s d, fromisoformat s = some d → parse_date (some s) = some d) ∧
    (∀ s d, fromisoformat s = none → strptimeDate '-' .ymd s = none →
      strptimeDate '/' .dmy s = some d → parse_date (some s) = some d) ∧
    (∀ s, fromisoformat s = none → strptimeDate '-' .ymd s = none →
      strptimeDate '/' .dmy s = none → strptimeDate '/' .mdy s = none →
      strptimeDate '/' .ymd s = none → parse_date (some s) = none) ∧
    (∀ embedder req db, countUrl (DB.articles db) req.url ≤ 1 →
      ∃ id db', save_article embedder req db = .ok (id, db')) := by
  refine ⟨rfl, rfl, ?_, ?_, ?_, ?_⟩
  · intro s d h
    cases he : s.data.isEmpty with
    | true =>
      rw [fromisoformat_empty s he] at h
      exact absurd h (by simp)
    | false =>
      simp [parse_date, he, h]
  · intro s d h1 h2 h3
    cases he : s.data.isEmpty with
    | true =>
      rw [strptimeDate_empty '/' .dmy s he] at h3
      exact absurd h3 (by simp)
    | false =>
      simp [parse_date, he, h1, h2, h3]
  · intro s h1 h2 h3 h4 h5
    cases he : s.data.isEmpty with
    | true => simp [parse_date, he]
    | false => simp [parse_date, he, h1, h2, h3, h4, h5]
  · intro embedder req db hinv
    obtain ⟨id, db', hok, -, -⟩ := save_article_char embedder req db hinv
    exact ⟨id, db', hok⟩

/-- Witness for C10: concrete dates in ISO and slash formats, a
non-date string, and a save whose date string parses under no format. -/
theorem parse_date_total_and_save_safe_witness :
    parse_date (some "2024-03-05") = some ⟨2024, 3, 5⟩ ∧
    parse_date (some "05/03/2024") = some ⟨2024, 3, 5⟩ ∧
    parse_date (some "not a date") = none ∧
    (∃ id db', save_article embDown reqGarbageDate emptyDB = .ok (id, db')) :=
  ⟨parse_date_total_and_save_safe.2.2.1 "2024-03-05" ⟨2024, 3, 5⟩ (by decide),
    parse_date_total_and_save_safe.2.2.2.1 "05/03/2024" ⟨2024, 3, 5⟩
      (by decide) (by decide) (by decide),
    parse_date_total_and_save_safe.2.2.2.2.1 "not a date"
      (by decide) (by decide) (by decide) (by decide) (by decide),
    parse_date_total_and_save_safe.2.2.2.2.2 embDown reqGarbageDate emptyDB
      (by simp [countUrl, emptyDB])⟩

/-! ### Claim C3 -/

/-- C3: every hit the threshold search returns carries a similarity
score, and that score is at least the threshold. -/
theorem search_respects_similarity_threshold (rows : List QueryRow)
    (t : ℚ) (hit : SearchHit) (h0 : 0 ≤ t) (h1 : t ≤ 1)
    (hmem : hit ∈ search_articles_with_threshold rows t) :
    ∃ s, hit.similarity = some s ∧ t ≤ s := by
  obtain ⟨-, hcond⟩ := List.mem_filter.mp hmem
  cases hs : hit.similarity with
  | none =>
    rw [hs] at hcond
    exact absurd hcond (by simp)
  | some s =>
    rw [hs] at hcond
    exact ⟨s, rfl, of_decide_eq_true hcond⟩

/-- Concrete Chroma query rows for the C3 witness. -/
def rowsW : List QueryRow :=
  [⟨"a1", "doc1", some (1/4)⟩, ⟨"a2", "doc2", some (3/4)⟩]

/-- Witness for C3 at a concrete row list and threshold one half. -/
theorem search_respects_similarity_threshold_witness :
    ∃ s, (⟨"a1", "doc1", some (1/4), some (1 - 1/4)⟩ : SearchHit).similarity = some s ∧
      (1 : ℚ)/2 ≤ s :=
  search_respects_similarity_threshold rowsW (1/2)
    ⟨"a1", "doc1", some (1/4), some (1 - 1/4)⟩ (by norm_num) (by norm_num)
    (by
      refine List.mem_filter.mpr ⟨?_, ?_⟩
      · show _ ∈ chroma_query rowsW
        exact List.mem_cons_self _ _
      · exact decide_eq_true (by norm_num))

/-! ### Claim C7 -/

/-- C7: `chroma_store.list_articles` answers at most `limit` articles,
and exactly the matching stored articles after the first `offset` of
them. -/
theorem list_articles_pagination_bounds (store : List StoredDoc)
    (w : StoredDoc → Bool) (limit offset : Nat)
    (h1 : 1 ≤ limit) (h2 : limit ≤ 100) :
    (chroma_list_articles store w limit offset).length ≤ limit ∧
    chroma_list_articles store w limit offset =
      ((store.filter w).drop offset).take limit := by
  have key : chroma_list_articles store w limit offset =
      ((store.filter w).drop offset).take limit := by
    unfold chroma_list_articles chroma_collection_get
    cases he : ((store.filter w).take (offset + limit)).isEmpty with
    | true =>
      have hnil : (store.filter w).take (offset + limit) = [] :=
        List.isEmpty_iff.mp he
      have hfil : store.filter w = [] := by
        rcases List.take_eq_nil_iff.mp hnil with h | h
        · exact absurd h (by omega)
        · exact h
      simp [he, hfil]
    | false =>
      simp only [he, Bool.false_eq_true, if_false]
      rw [List.drop_take, Nat.add_sub_cancel_left, List.take_take, Nat.min_self]
  refine ⟨?_, key⟩
  rw [key]
  exact List.length_take_le _ _

/-- Concrete store for the C7 witness. -/
def storeW : List StoredDoc :=
  [⟨"i1", "d1", "tech", "o", "au"⟩, ⟨"i2", "d2", "news", "o", "au"⟩,
    ⟨"i3", "d3", "tech", "o", "au"⟩, ⟨"i4", "d4", "tech", "o", "au"⟩]

/-- Witness for C7 at a concrete store, filter, limit 2 and offset 1. -/
theorem list_articles_pagination_bounds_witness :
    (chroma_list_articles storeW (fun d => d.category == "tech") 2 1).length ≤ 2 ∧
    chroma_list_articles storeW (fun d => d.category == "tech") 2 1 =
      ((storeW.filter (fun d => d.category == "tech")).drop 1).take 2 :=
  list_articles_pagination_bounds storeW (fun d => d.category == "tech") 2 1
    (by decide) (by decide)

/-! ### Claim C9 -/

/-- C9: a fetched body that is empty or shorter than 100 characters
makes `fetch_url_content` answer an `ExtractionError`, and `extract`
then answers that error without consulting the LLM step. -/
theorem short_content_rejected_before_llm (url body : String)
    (llm : String → Except ExtractionError ArticleContent)
    (h : body.length < 100) :
    fetch_url_content url (.ok body) =
      .error ⟨"Unexpected error fetching URL: Content too short or empty from URL: " ++ url⟩ ∧
    extract url (.ok body) llm =
      .error ⟨"Unexpected error fetching URL: Content too short or empty from URL: " ++ url⟩ := by
  have hf : fetch_url_content url (.ok body) =
      .error ⟨"Unexpected error fetching URL: Content too short or empty from URL: " ++ url⟩ := by
    simp only [fetch_url_content]
    rw [if_pos h]
  refine ⟨hf, ?_⟩
  unfold extract
  rw [hf]

/-- Witness for C9 at a nine-character body. -/
theorem short_content_rejected_before_llm_witness :
    fetch_url_content "https://example.com/s" (.ok "too short") =
      .error ⟨"Unexpected error fetching URL: Content too short or empty from URL: https://example.com/s"⟩ ∧
    extract "https://example.com/s" (.ok "too short") (fun _ => .error ⟨"unused"⟩) =
      .error ⟨"Unexpected error fetching URL: Content too short or empty from URL: https://example.com/s"⟩ :=
  short_content_rejected_before_llm "https://example.com/s" "too short"
    (fun _ => .error ⟨"unused"⟩) (by decide)

/-! ### Claim C6 -/

/-- C6: every error out of an external call is translated to the local
error type with a message and answered with HTTP 500 at the route
boundary, and a lookup of an id that is not stored is answered with
HTTP 404: the five route handlers map service errors to status 500, the
get-by-id handler maps a missing article to status 404, and
`fetch_url_content` and `generate` re-raise transport and API errors as
`ExtractionError` and `EmbeddingError`. -/
theorem routes_translate_errors_to_http_status :
    (∀ url e, extract_article_route url (.error e) = .httpError 500 e.msg) ∧
    (∀ e, save_article_route (.error e) = .httpError 500 e.msg) ∧
    (∀ m, search_articles_route (.error m) = .httpError 500 m) ∧
    (∀ m, list_articles_route (.error m) = .httpError 500 m) ∧
    (∀ aid e, get_article_route aid (.error e) = .httpError 500 e.msg) ∧
    (∀ aid, get_article_route aid (.ok none) =
      .httpError 404 ("Article with ID " ++ toString aid ++ " not found")) ∧
    (∀ url code text, fetch_url_content url (.httpStatusError code text) =
      .error ⟨"HTTP error fetching URL: " ++ toString code ++ " - " ++ text⟩) ∧
    (∀ url m, fetch_url_content url (.requestError m) =
      .error ⟨"Request error fetching URL: " ++ m⟩) ∧
    (∀ m, generate (.openAIError m) = .error ⟨"OpenAI API error: " ++ m⟩) :=
  ⟨fun _ _ => rfl, fun _ => rfl, fun _ => rfl, fun _ => rfl, fun _ _ => rfl,
    fun _ => rfl, fun _ _ _ => rfl, fun _ _ => rfl, fun _ => rfl⟩

/-! ### Claim C4 -/

/-- C4 counterexample: it is not the case that every HTTP operation has
a corresponding MCP tool: the registered tools cover search, get-by-id
and list only, so the claim fails at the extract (and save) operation. -/
theorem mcp_tools_missing_extract_and_save :
    ¬ (∀ op ∈ httpOperations, op ∈ mcpToolOperations) := by
  decide

/-- C4 amended: the MCP server registers exactly three tools, mirroring
the search, get-by-id and list HTTP operations; no MCP tool performs the
extract or the save operation, though both are HTTP endpoints. -/
theorem mcp_tools_mirror_read_operations :
    mcpToolNames.length = 3 ∧
    ApiOperation.searchOp ∈ mcpToolOperations ∧
    ApiOperation.getByIdOp ∈ mcpToolOperations ∧
    ApiOperation.listOp ∈ mcpToolOperations ∧
    ApiOperation.extractOp ∉ mcpToolOperations ∧
    ApiOperation.saveOp ∉ mcpToolOperations ∧
    ApiOperation.extractOp ∈ httpOperations ∧
    ApiOperation.saveOp ∈ httpOperations := by
  decide

/-! ### Claim C5 -/

/-- Statement of the C5 claim on a store: every stored article
references a category whose name is in the configured allow-list. -/
def CategoriesInAllowList (db : DB) : Prop :=
  ∀ a ∈ db.articles, ∀ c ∈ db.categories, a.category_id = c.id →
    c.name ∈ allowedCategories

/-- Concrete save request carrying a category outside the allow-list. -/
def reqInvalidCategory : SaveRequest :=
  ⟨"https://example.com/inv", "Inv", none, none, "Inv body", "Inv summary",
    [], "astrology", none, none⟩

/-- C5 counterexample: a save through the public save path with a
category outside the allow-list succeeds and stores an article whose
category is not in the allow-list, because `_get_or_create_category`
only normalizes the name and never validates it. -/
theorem save_path_stores_disallowed_category :
    ∃ id db', save_article embDown reqInvalidCategory emptyDB = .ok (id, db') ∧
      ¬ CategoriesInAllowList db' := by
  refine ⟨1,
    ⟨[], [⟨0, "astrology"⟩],
      [⟨1, "https://example.com/inv", "Inv", none, none, "Inv body",
        "Inv summary", [], 0, none, none⟩], [], 2⟩, ?_, ?_⟩
  · rfl
  · unfold CategoriesInAllowList
    decide

/-- C5 amended: the extraction path does validate: the category
`_parse_extracted_content` keeps is always in the (default) allow-list,
an invalid one being replaced by the fallback category; the save path
performs no such validation (see the counterexample). -/
theorem extracted_category_in_allow_list (category : String) :
    validate_extracted_category category ∈ allowedCategories := by
  unfold validate_extracted_category
  by_cases h : allowedCategories.contains category = true
  · rw [if_pos h]
    exact List.mem_of_elem_eq_true h
  · rw [if_neg h]
    decide

/-! ### Claim C8 -/

/-- Total case analysis of `save_article` without any invariant: it
either succeeds with the articles table extended by one row or updated
in place, or fails leaving the transaction rolled back. -/
lemma save_article_cases (embedder : String → Except EmbeddingError (List ℚ))
    (req : SaveRequest) (db : DB) :
    (∃ id db', save_article embedder req db = .ok (id, db') ∧
      (db'.articles = db.articles ++ [insertedArticle req db] ∨
        db'.articles = updatedArticles req db)) ∨
    (∃ e, save_article embedder req db = .error e) := by
  cases hfe : db.articles.filter (fun a => a.url == req.url) with
  | nil =>
    left
    refine ⟨?i1, ?d1, ?p1, ?q1⟩
    case p1 =>
      unfold save_article
      rw [hfe]
      exact rfl
    case q1 => exact Or.inl rfl
  | cons ex rest =>
    cases rest with
    | nil =>
      left
      refine ⟨?i2, ?d2, ?p2, ?q2⟩
      case p2 =>
        unfold save_article
        rw [hfe]
        exact rfl
      case q2 => exact Or.inr rfl
    | cons ey t =>
      right
      refine ⟨?e3, ?p3⟩
      case p3 =>
        unfold save_article
        rw [hfe]
        exact rfl

/-- The in-place update branch keeps every row, with id and URL
untouched. -/
lemma updatedArticles_preserves (req : SaveRequest) (db : DB) (a : Article)
    (ha : a ∈ db.articles) :
    ∃ a', a' ∈ updatedArticles req db ∧ a'.id = a.id ∧ a'.url = a.url := by
  unfold updatedArticles
  refine ⟨_, List.mem_map_of_mem _ ha, ?_, ?_⟩ <;>
  · by_cases h : (a.url == req.url) = true
    · simp [h, updateExisting]
    · simp [h]

/-- One public operation keeps every stored article, with id and URL
untouched. -/
lemma applyOp_preserves (embedder : String → Except EmbeddingError (List ℚ))
    (db : DB) (op : PublicOp) (a : Article) (ha : a ∈ db.articles) :
    ∃ a', a' ∈ (applyOp embedder db op).articles ∧ a'.id = a.id ∧ a'.url = a.url := by
  cases op with
  | saveOp req =>
    rcases save_article_cases embedder req db with ⟨id, db', hok, hsh⟩ | ⟨e, herr⟩
    · have happly : applyOp embedder db (.saveOp req) = db' := by
        show (match save_article embedder req db with
          | Except.ok r => r.2
          | Except.error _ => db) = db'
        rw [hok]
      rw [happly]
      rcases hsh with h | h
      · exact ⟨a, by rw [h]; exact List.mem_append_left _ ha, rfl, rfl⟩
      · rw [h]
        exact updatedArticles_preserves req db a ha
    · have happly : applyOp embedder db (.saveOp req) = db := by
        show (match save_article embedder req db with
          | Except.ok r => r.2
          | Except.error _ => db) = db
        rw [herr]
      rw [happly]
      exact ⟨a, ha, rfl, rfl⟩
  | extractOp url => exact ⟨a, ha, rfl, rfl⟩
  | getByIdOp i => exact ⟨a, ha, rfl, rfl⟩
  | searchOp q n t => exact ⟨a, ha, rfl, rfl⟩
  | listOp n o => exact ⟨a, ha, rfl, rfl⟩
  | mcpSearchOp q n t => exact ⟨a, ha, rfl, rfl⟩
  | mcpGetOp i => exact ⟨a, ha, rfl, rfl⟩
  | mcpListOp n o => exact ⟨a, ha, rfl, rfl⟩

/-- C8: no sequence of public operations (HTTP routes or MCP tools)
ever removes a stored article: each article present before the sequence
is still present afterwards, with the same id and URL (its other fields
may have been updated in place). -/
theorem public_ops_never_delete_articles
    (embedder : String → Except EmbeddingError (List ℚ)) (ops : List PublicOp)
    (db : DB) (a : Article) (ha : a ∈ db.articles) :
    ∃ a', a' ∈ (runOps embedder db ops).articles ∧ a'.id = a.id ∧ a'.url = a.url := by
  induction ops generalizing db a with
  | nil => exact ⟨a, ha, rfl, rfl⟩
  | cons op rest ih =>
    obtain ⟨b, hb, hbid, hburl⟩ := applyOp_preserves embedder db op a ha
    obtain ⟨c, hc, hcid, hcurl⟩ := ih (applyOp embedder db op) b hb
    exact ⟨c, hc, by rw [hcid, hbid], by rw [hcurl, hburl]⟩

/-- Concrete pre-existing article for the C8 witness. -/
def artKappa : Article :=
  ⟨7, "https://example.com/k", "K", none, none, "K body", "K summary", [], 0, none, none⟩

/-- Concrete store holding `artKappa`, for the C8 witness. -/
def dbKappa : DB := ⟨[], [⟨0, "tech"⟩], [artKappa], [], 8⟩

/-- Concrete public-operation sequence for the C8 witness: a save of
another URL, an HTTP get, an MCP list. -/
def opsKappa : List PublicOp :=
  [.saveOp reqAlpha, .getByIdOp 7, .mcpListOp 10 0]

/-- Witness for C8: after the concrete sequence, `artKappa` is still in
the store with its id and URL. -/
theorem public_ops_never_delete_articles_witness :
    ∃ a', a' ∈ (runOps embDown dbKappa opsKappa).articles ∧
      a'.id = artKappa.id ∧ a'.url = artKappa.url :=
  public_ops_never_delete_articles embDown opsKappa dbKappa artKappa
    (List.mem_singleton_self artKappa)

end MCPress
